import Mathlib

/-!
# Verification of the baidu-pcs Go client (package `pcs`)

Shallow embedding of the upload subsystem of the `baidu-pcs` client:
the request builder (`Client.addOptions` and the `Get`/`Post`/`PostForm`
request constructors in `baidupcs.go`), the response decoder
(`CheckResponse` / `Client.Do`), the content fingerprint engine
(`Client.SumFile`), the multipart upload body builder (`Client.upload`)
and the operations built on top of them (`Upload`, `BlockUpload`,
`CreateSuperFile`, `Download`, `RapidUpload`, ...) as found in `pcs.go`.

Modelling conventions:
* Go byte slices are `List Nat` (each entry < 256 where it matters).
* Go `error` results become `Except GoErr _` / `Option GoErr`; the sentinel
  error variables of the package (`ErrInvalidArgument`, `ErrMinRapidFileSize`,
  `ErrIncompleteFile`) are constructors of `GoErr`.
* `net/url.URL` is modelled structurally by its scheme+host, path and query
  components (`Url`); URL serialization is abstracted to this structured
  form, and `url.Values` to an association list with `Set` / `Encode`
  (Go's `Encode` sorts by key) — percent-escaping is not modelled, no
  claim depends on it.
* File-system interaction (`os.Open`, `io.Copy`, `File.Stat`) is modelled
  by passing the outcomes (`copyResult`, `statResult`, file bytes) as
  explicit inputs.
-/

set_option autoImplicit false
set_option linter.unusedVariables false

namespace BaiduPcs

/-- The package's sentinel error values (`errors.New` variables in
`baidupcs.go`) plus the error shapes flowing through the embedded code
paths: standard-library I/O errors, JSON decode errors and the structured
`ErrorResponse` produced by `CheckResponse`. -/
inductive GoErr where
  /-- `ErrInvalidArgument = errors.New("baidu-pcs: invalid argument")` -/
  | invalidArgument
  /-- `ErrMinRapidFileSize = errors.New("baidu-pcs: rapid upload file size must > 256KB")` -/
  | minRapidFileSize
  /-- `ErrIncompleteFile = errors.New("baidu-pcs: could not read the whole file")` -/
  | incompleteFile
  /-- `io.EOF`, returned e.g. by `bytes.Buffer.Read` on an empty buffer. -/
  | eof
  /-- an arbitrary I/O error carried through unchanged (open/copy/stat). -/
  | ioFailure (msg : String)
  /-- a JSON decode error from `encoding/json`. -/
  | jsonDecode
  /-- the structured remote error built by `CheckResponse`
  (status code, `error_msg`, `error_code`). -/
  | apiError (status : Int) (message : String) (code : Int)
  deriving DecidableEq, Repr

/-- Go `net/url.Values`: an association list of query/form parameters.
The code only ever uses `Set` (replace all values of a key by one value)
and `Encode`, so single-valued pairs model it exactly. -/
abbrev Values := List (String × String)

/-- Go `url.Values.Set(key, value)`: replaces any entries for `key` with the
single entry `(key, value)`. -/
def Values.set (q : Values) (key value : String) : Values :=
  (List.filter (fun p => p.1 ≠ key) q) ++ [(key, value)]

/-- Go `url.Values.Encode()` sorts the parameters by key; we keep the result
as the sorted association list (the textual `k=v&...` rendering is
abstracted away). -/
def Values.encode (q : Values) : List (String × String) :=
  List.mergeSort q (fun a b => a.1 ≤ b.1)

/-- A structural `net/url.URL`: `hostPart` is the scheme plus authority
(e.g. `"https://pcs.baidu.com"`, empty for a relative URL), `path` the
path component and `query` the encoded query parameters. -/
structure Url where
  hostPart : String
  path : String
  query : List (String × String)
  deriving DecidableEq, Repr

/-- The relative URL string returned by `Client.addOptions` (a path
segment such as `"file"` plus an encoded query). -/
structure RelUrl where
  path : String
  query : List (String × String)
  deriving DecidableEq, Repr

/-- The `opt interface{}` argument of `Client.addOptions`.  Three shapes
reach it in the source: the untyped literal `nil` (reflect kind
`Invalid`), a typed nil pointer such as `(*FileOptions)(nil)` (reflect
kind `Ptr` with `IsNil()` true), and a non-nil option struct, which
`query.Values` encodes to its tagged fields. -/
inductive OptArg where
  /-- untyped `nil` literal: `reflect.ValueOf(nil).Kind() == Invalid`,
  `query.Values(nil)` yields an empty `url.Values`. -/
  | interfaceNil
  /-- typed nil pointer: `v.Kind() == reflect.Ptr && v.IsNil()`. -/
  | nilPtr
  /-- non-nil option set, already encoded by `query.Values` to the
  field list declared by its `url:"..."` tags. -/
  | fields (l : List (String × String))
  deriving DecidableEq, Repr

/-- The client of `baidupcs.go`: three immutable base URLs plus the
access token.  (`UserAgent` and the transport only affect headers and
I/O, not URL construction, and are omitted.) -/
structure Client where
  accessToken : String
  baseURL : Url
  uploadURL : Url
  downloadURL : Url
  deriving DecidableEq, Repr

/-- Go `defaultBaseURL = "https://pcs.baidu.com/rest/2.0/pcs"` parsed. -/
def defaultBaseURL : Url :=
  { hostPart := "https://pcs.baidu.com", path := "/rest/2.0/pcs", query := [] }

/-- Go `uploadBaseURL = "https://c.pcs.baidu.com/rest/2.0/pcs"` parsed. -/
def uploadBaseURL : Url :=
  { hostPart := "https://c.pcs.baidu.com", path := "/rest/2.0/pcs", query := [] }

/-- Go `downloadBaseURL = "https://d.pcs.baidu.com/rest/2.0/pcs"` parsed. -/
def downloadBaseURL : Url :=
  { hostPart := "https://d.pcs.baidu.com", path := "/rest/2.0/pcs", query := [] }

/-- Go `NewClient(accessToken)`. -/
def NewClient (accessToken : String) : Client :=
  { accessToken := accessToken
    baseURL := defaultBaseURL
    uploadURL := uploadBaseURL
    downloadURL := downloadBaseURL }

/-- Go `Client.addOptions(s, method, opt)` from `baidupcs.go`:
* a typed nil pointer returns `s` unchanged (early return, so no
  `access_token` / `method` parameters are attached);
* otherwise `s` is parsed, the option fields become the query, and
  `access_token` and `method` are `Set` before `Encode`. -/
def Client.addOptions (c : Client) (s method : String) (opt : OptArg) : RelUrl :=
  match opt with
  | .nilPtr => { path := s, query := [] }
  | .interfaceNil =>
      { path := s
        query := Values.encode
          (Values.set (Values.set ([] : Values) "access_token" c.accessToken) "method" method) }
  | .fields l =>
      { path := s
        query := Values.encode
          (Values.set (Values.set l "access_token" c.accessToken) "method" method) }

/-- RFC 3986 path merge as implemented by `url.URL.ResolveReference` for
the reference strings produced in this package (a non-empty relative path
with no dot segments): an absolute reference path replaces the base path,
otherwise the reference replaces everything after the last `/` of the
base path. -/
def mergePath (basePath relPath : String) : String :=
  if relPath.startsWith "/" then relPath
  else
    let kept := (basePath.toList.reverse.dropWhile (fun ch => ch ≠ '/')).reverse
    String.mk kept ++ relPath

/-- Go `base.ResolveReference(rel)`: keeps the base's scheme and host, merges
the paths and takes the reference's query. -/
def resolveReference (base : Url) (rel : RelUrl) : Url :=
  { hostPart := base.hostPart, path := mergePath base.path rel.path, query := rel.query }

/-- A relative URL used directly as a request target (what
`http.NewRequest` produces from the bare string, with no base
resolution): no scheme or host. -/
def relToUrl (rel : RelUrl) : Url :=
  { hostPart := "", path := rel.path, query := rel.query }

/-- The multipart body assembled by `Client.upload`: one form file field
(the boundary string chosen by `mime/multipart` is abstracted away). -/
structure Multipart where
  fieldName : String
  fileName : String
  fileBytes : List Nat
  deriving DecidableEq, Repr

/-- An outgoing HTTP request as constructed by the client: method, target
URL, content type, optional form body and optional multipart body. -/
structure Request where
  method : String
  url : Url
  contentType : String := ""
  form : List (String × String) := []
  multipart : Option Multipart := none
  deriving DecidableEq, Repr

/-- Go `Client.Get(url, v)` builds its request through `Client.NewRequest`,
which resolves the URL against `c.BaseURL`. -/
def Client.getRequest (c : Client) (u : RelUrl) : Request :=
  { method := "GET", url := resolveReference c.baseURL u }

/-- Go `Client.Post(url, contentType, body, v)` hands the URL string straight
to `http.NewRequest` — no resolution against any base URL. -/
def Client.postRequest (_c : Client) (u : RelUrl) (contentType : String)
    (body : Option Multipart) : Request :=
  { method := "POST", url := relToUrl u, contentType := contentType, multipart := body }

/-- Go `Client.PostForm(url, data, v)`: a `Post` with content type
`application/x-www-form-urlencoded` and the encoded form values as body. -/
def Client.postFormRequest (c : Client) (u : RelUrl) (data : Values) : Request :=
  { (c.postRequest u "application/x-www-form-urlencoded" none) with
    form := Values.encode data }

/-! ## Response decoding (`CheckResponse`, `Client.Do` in `baidupcs.go`)

`CheckResponse` treats exactly the statuses 200..299 as success; on any
other status it reads the body and `json.Unmarshal`s it into an
`ErrorResponse{ Message string `error_msg`; Code int `error_code` }`,
ignoring the unmarshal error (partial decode tolerated).  We model the
fragment of `encoding/json` this needs: a flat JSON object whose values
are strings or integers; any other body shape counts as a decode failure,
which `CheckResponse` ignores identically (zero values remain). -/

/-- A JSON scalar as needed by the error body: string or integer. -/
inductive JVal where
  | str (s : String)
  | num (n : Int)
  deriving DecidableEq, Repr

/-- Drop JSON whitespace. -/
def skipWs (cs : List Char) : List Char :=
  cs.dropWhile (fun ch => ch == ' ' || ch == '\t' || ch == '\n' || ch == '\x0d')

/-- Parse the remainder of a JSON string literal (after the opening
quote), supporting the `\"` and `\\` escapes; returns the string and the
input after the closing quote. -/
def parseJString (fuel : Nat) (cs : List Char) : Option (String × List Char) :=
  match fuel, cs with
  | 0, _ => none
  | _, [] => none
  | f + 1, ch :: rest =>
    if ch = '"' then some ("", rest)
    else if ch = '\\' then
      match rest with
      | [] => none
      | e :: rest2 =>
        let esc : Option Char :=
          if e = '"' then some '"'
          else if e = '\\' then some '\\'
          else none
        match esc with
        | none => none
        | some c2 =>
          (parseJString f rest2).map (fun p => (String.mk (c2 :: p.1.toList), p.2))
    else (parseJString f rest).map (fun p => (String.mk (ch :: p.1.toList), p.2))

/-- Parse a JSON integer (optional minus sign, decimal digits). -/
def parseJNumber (cs : List Char) : Option (Int × List Char) :=
  let signAndRest : Bool × List Char :=
    match cs with
    | ch :: rest => if ch = '-' then (true, rest) else (false, cs)
    | [] => (false, cs)
  let digits := signAndRest.2.takeWhile (fun ch => ch.isDigit)
  let rest := signAndRest.2.dropWhile (fun ch => ch.isDigit)
  if digits.isEmpty then none
  else
    let n : Nat := digits.foldl (fun a ch => a * 10 + (ch.toNat - 48)) 0
    some (if signAndRest.1 then -(n : Int) else (n : Int), rest)

/-- Parse a JSON scalar value (string or integer). -/
def parseJValue (fuel : Nat) (cs : List Char) : Option (JVal × List Char) :=
  match cs with
  | '"' :: rest => (parseJString fuel rest).map (fun p => (JVal.str p.1, p.2))
  | _ => (parseJNumber cs).map (fun p => (JVal.num p.1, p.2))

/-- Parse the entries of a non-empty flat JSON object, starting at the
first key, through the closing brace. -/
def parseJEntries (fuel : Nat) (cs : List Char) :
    Option (List (String × JVal) × List Char) :=
  match fuel with
  | 0 => none
  | f + 1 =>
    match skipWs cs with
    | '"' :: rest =>
      match parseJString (rest.length + 1) rest with
      | none => none
      | some (key, rest1) =>
        match skipWs rest1 with
        | ':' :: rest3 =>
          match parseJValue (rest3.length + 1) (skipWs rest3) with
          | none => none
          | some (v, rest5) =>
            match skipWs rest5 with
            | ',' :: rest7 =>
              (parseJEntries f rest7).map (fun p => ((key, v) :: p.1, p.2))
            | '\x7d' :: rest7 => some ([(key, v)], rest7)
            | _ => none
        | _ => none
    | _ => none

/-- Parse a whole body as a flat JSON object of scalars; `none` models a
`json.Unmarshal` failure. -/
def parseFlatObject (body : String) : Option (List (String × JVal)) :=
  match skipWs body.toList with
  | '\x7b' :: rest =>
    match skipWs rest with
    | '\x7d' :: rest2 => if (skipWs rest2).isEmpty then some [] else none
    | rest1 =>
      match parseJEntries (rest1.length + 1) rest1 with
      | some (es, r) => if (skipWs r).isEmpty then some es else none
      | none => none
  | _ => none

/-- Go `json.Unmarshal(data, &ErrorResponse{...})` restricted to the two
tagged fields: `error_msg` (string) and `error_code` (int).  Unknown keys
are ignored; on a decode failure the fields keep their zero values (the
source discards the unmarshal error). -/
def unmarshalErrorResponse (body : String) : String × Int :=
  match parseFlatObject body with
  | none => ("", 0)
  | some entries =>
    entries.foldl
      (fun acc e =>
        match e with
        | ("error_msg", .str s) => (s, acc.2)
        | ("error_code", .num n) => (acc.1, n)
        | _ => acc)
      ("", 0)

/-- Go `CheckResponse(r)` from `baidupcs.go`: success (no error) exactly for
status 200..299; otherwise an `ErrorResponse` is built carrying the
response and whatever `error_msg`/`error_code` the body yields. -/
def CheckResponse (status : Int) (body : String) : Option GoErr :=
  if 200 ≤ status ∧ status ≤ 299 then none
  else
    some (.apiError status (unmarshalErrorResponse body).1 (unmarshalErrorResponse body).2)

/-- The `v interface{}` output target handed to `Client.Do`: absent, an
`io.Writer` (raw byte output, whose `io.Copy` outcome we pass in
explicitly), or a JSON target (whose decode outcome we pass in
explicitly). -/
inductive DoTarget where
  | noTarget
  | writer (copyOutcome : Except GoErr Nat)
  | jsonValue (decodeOutcome : Option GoErr)
  deriving Repr

/-- The error component of `Client.Do(req, v)` after the transport
succeeded with the given status and body.  The source checks the response,
then for an `io.Writer` target runs `io.Copy(w, resp.Body)` *discarding
its result*, and for any other non-nil target stores the JSON decode
error in `err` before `return resp, err`. -/
def Client.Do (status : Int) (body : String) (v : DoTarget) : Option GoErr :=
  match CheckResponse status body with
  | some e => some e
  | none =>
    match v with
    | .noTarget => none
    | .writer _ => none
    | .jsonValue d => d

/-! ## Fingerprint engine (`crypto/md5`, `hash/crc32`, `Client.SumFile`)

`Client.SumFile` in `pcs.go` reads the whole file into a buffer, hashes
its bytes (MD5 and CRC32-IEEE), then allocates a zeroed 262144-byte slice,
`buf.Read`s into it — and hashes the *entire* slice, ignoring the byte
count `Read` returned.  The digest algorithms are modelled in full; they
are standard `crypto/md5` and `hash/crc32.ChecksumIEEE`. -/

/-- Addition on 32-bit words (`uint32` wrap-around). -/
def add32 (a b : Nat) : Nat := (a + b) % 4294967296

/-- Bitwise complement on 32-bit words (inputs kept below `2^32`). -/
def not32 (x : Nat) : Nat := 4294967295 - x % 4294967296

/-- Left rotation on 32-bit words (input below `2^32`). -/
def rotl32 (x n : Nat) : Nat := (x * 2 ^ n + x / 2 ^ (32 - n)) % 4294967296

/-- The 64 MD5 sine-derived constants `K[i]`. -/
def md5K : List Nat :=
  [0xd76aa478, 0xe8c7b756, 0x242070db, 0xc1bdceee,
   0xf57c0faf, 0x4787c62a, 0xa8304613, 0xfd469501,
   0x698098d8, 0x8b44f7af, 0xffff5bb1, 0x895cd7be,
   0x6b901122, 0xfd987193, 0xa679438e, 0x49b40821,
   0xf61e2562, 0xc040b340, 0x265e5a51, 0xe9b6c7aa,
   0xd62f105d, 0x02441453, 0xd8a1e681, 0xe7d3fbc8,
   0x21e1cde6, 0xc33707d6, 0xf4d50d87, 0x455a14ed,
   0xa9e3e905, 0xfcefa3f8, 0x676f02d9, 0x8d2a4c8a,
   0xfffa3942, 0x8771f681, 0x6d9d6122, 0xfde5380c,
   0xa4beea44, 0x4bdecfa9, 0xf6bb4b60, 0xbebfbc70,
   0x289b7ec6, 0xeaa127fa, 0xd4ef3085, 0x04881d05,
   0xd9d4d039, 0xe6db99e5, 0x1fa27cf8, 0xc4ac5665,
   0xf4292244, 0x432aff97, 0xab9423a7, 0xfc93a039,
   0x655b59c3, 0x8f0ccc92, 0xffeff47d, 0x85845dd1,
   0x6fa87e4f, 0xfe2ce6e0, 0xa3014314, 0x4e0811a1,
   0xf7537e82, 0xbd3af235, 0x2ad7d2bb, 0xeb86d391]

/-- The 64 MD5 per-round left-rotation amounts `s[i]`. -/
def md5S : List Nat :=
  [7, 12, 17, 22, 7, 12, 17, 22, 7, 12, 17, 22, 7, 12, 17, 22,
   5, 9, 14, 20, 5, 9, 14, 20, 5, 9, 14, 20, 5, 9, 14, 20,
   4, 11, 16, 23, 4, 11, 16, 23, 4, 11, 16, 23, 4, 11, 16, 23,
   6, 10, 15, 21, 6, 10, 15, 21, 6, 10, 15, 21, 6, 10, 15, 21]

/-- The MD5 round function for step `i` on words `b c d`. -/
def md5F (i b c d : Nat) : Nat :=
  if i < 16 then (b &&& c) ||| (not32 b &&& d)
  else if i < 32 then (d &&& b) ||| (not32 d &&& c)
  else if i < 48 then b ^^^ c ^^^ d
  else c ^^^ (b ||| not32 d)

/-- The MD5 message-word index `g` for step `i`. -/
def md5G (i : Nat) : Nat :=
  if i < 16 then i
  else if i < 32 then (5 * i + 1) % 16
  else if i < 48 then (3 * i + 5) % 16
  else (7 * i) % 16

/-- Byte `i` of a byte list (0 beyond the end). -/
def byteAt (l : List Nat) (i : Nat) : Nat := l.getD i 0

/-- The little-endian 32-bit word at byte offset `off`. -/
def leWord (l : List Nat) (off : Nat) : Nat :=
  byteAt l off + 256 * byteAt l (off + 1) + 65536 * byteAt l (off + 2)
    + 16777216 * byteAt l (off + 3)

/-- One MD5 step: updates the state `(a, b, c, d)` for step `i` on the
block starting at `blockOff`. -/
def md5Step (msg : List Nat) (blockOff : Nat) (st : Nat × Nat × Nat × Nat) (i : Nat) :
    Nat × Nat × Nat × Nat :=
  let t := add32 (add32 (md5F i st.2.1 st.2.2.1 st.2.2.2) st.1)
    (add32 (md5K.getD i 0) (leWord msg (blockOff + 4 * md5G i)))
  (st.2.2.2, add32 st.2.1 (rotl32 t (md5S.getD i 0)), st.2.1, st.2.2.1)

/-- Process 64-byte block number `blk` of the padded message. -/
def md5Block (msg : List Nat) (st : Nat × Nat × Nat × Nat) (blk : Nat) :
    Nat × Nat × Nat × Nat :=
  let r := (List.range 64).foldl (md5Step msg (64 * blk)) st
  (add32 st.1 r.1, add32 st.2.1 r.2.1, add32 st.2.2.1 r.2.2.1, add32 st.2.2.2 r.2.2.2)

/-- MD5 padding: `0x80`, zeros to 56 mod 64, then the bit length as a
little-endian 64-bit value. -/
def md5Pad (msg : List Nat) : List Nat :=
  msg ++ 128 :: List.replicate ((119 - msg.length % 64) % 64) 0
    ++ (List.range 8).map (fun i => 8 * msg.length / 2 ^ (8 * i) % 256)

/-- A 32-bit word as four little-endian bytes. -/
def leBytes32 (x : Nat) : List Nat :=
  [x % 256, x / 256 % 256, x / 65536 % 256, x / 16777216 % 256]

/-- The 16 MD5 digest bytes of a byte sequence (`crypto/md5`). -/
def md5Bytes (msg : List Nat) : List Nat :=
  let padded := md5Pad msg
  let r := (List.range (padded.length / 64)).foldl (md5Block padded)
    (0x67452301, 0xefcdab89, 0x98badcfe, 0x10325476)
  leBytes32 r.1 ++ leBytes32 r.2.1 ++ leBytes32 r.2.2.1 ++ leBytes32 r.2.2.2

/-- Lowercase hexadecimal digit. -/
def hexDigit (n : Nat) : Char :=
  if n < 10 then Char.ofNat (48 + n) else Char.ofNat (87 + n)

/-- A byte as two lowercase hex characters. -/
def byteHex (b : Nat) : List Char := [hexDigit (b / 16 % 16), hexDigit (b % 16)]

/-- Go `fmt.Sprintf("%x", h.Sum(nil))`: the MD5 digest of a byte sequence as
32 lowercase hex characters. -/
def md5Hex (msg : List Nat) : String := String.mk ((md5Bytes msg).map byteHex).flatten

/-- One byte of `hash/crc32` (IEEE, reflected polynomial `0xedb88320`). -/
def crc32Byte (crc b : Nat) : Nat :=
  (List.range 8).foldl
    (fun c _ => if c % 2 = 1 then c / 2 ^^^ 0xedb88320 else c / 2)
    (crc ^^^ b)

/-- Go `crc32.ChecksumIEEE`. -/
def ChecksumIEEE (msg : List Nat) : Nat :=
  (msg.foldl crc32Byte 0xffffffff) ^^^ 0xffffffff

/-- Go `minRapidUploadFile = 256 * 1024`. -/
def minRapidUploadFile : Nat := 256 * 1024

/-- The result tuple of `Client.SumFile`. -/
structure Fingerprint where
  contentLen : Nat
  contentMd5 : String
  sliceMd5 : String
  contentCrc32 : Nat
  deriving DecidableEq, Repr

/-- The 262144-byte slice buffer after `slice := make([]byte,
minRapidUploadFile); buf.Read(slice)`: `Read` copies
`min(len(content), 262144)` bytes into the front of the zeroed buffer and
leaves the rest zero. -/
def sliceBuffer (content : List Nat) : List Nat :=
  content.take minRapidUploadFile
    ++ List.replicate (minRapidUploadFile - content.length) 0

/-- Go `Client.SumFile(path)` from `pcs.go`, with the file's bytes passed in
(`os.Open` + `io.Copy` into the buffer assumed to succeed).  On an empty
file `buf.Read` returns `io.EOF`, which the function propagates.  For the
slice digest the source hashes the whole 262144-byte buffer — it ignores
the count returned by `buf.Read` —, so short content is zero-padded. -/
def Client.SumFile (content : List Nat) : Except GoErr Fingerprint :=
  if content.length = 0 then .error .eof
  else
    .ok { contentLen := content.length
          contentMd5 := md5Hex content
          sliceMd5 := md5Hex (sliceBuffer content)
          contentCrc32 := ChecksumIEEE content }

/-! ## Direct-upload body builder (`Client.upload` in `pcs.go`)

`Client.upload(path)` opens the file, writes it as a single multipart form
file field named `"file"` bearing the path's base name, and fails with
`ErrIncompleteFile` when the number of bytes `io.Copy` reported does not
equal `file.Stat().Size()`. -/

/-- Go `path/filepath.Base`: the last element of the path, after dropping
trailing slashes; `"."` for the empty path, `"/"` if the path is all
slashes. -/
def filepathBase (path : String) : String :=
  if path = "" then "."
  else
    let trimmed := (path.toList.reverse.dropWhile (fun ch => ch = '/')).reverse
    if trimmed.isEmpty then "/"
    else String.mk (trimmed.reverse.takeWhile (fun ch => ch ≠ '/')).reverse

/-- The inputs of one `Client.upload` call: the path argument, the
outcome of `io.Copy(part, file)` (on success, the bytes actually copied
into the multipart body), and the outcome of `file.Stat()` (on success,
the size `Stat` reports). -/
structure UploadFile where
  path : String
  copyResult : Except GoErr (List Nat)
  statResult : Except GoErr Int
  deriving Repr

/-- Go `writer.FormDataContentType()` with the random boundary abstracted
away. -/
def multipartContentType : String := "multipart/form-data"

/-- Go `Client.upload(path)` from `pcs.go`: copy the file into a multipart
form file field, then compare the copied byte count against
`file.Stat().Size()`; a mismatch is `ErrIncompleteFile`, otherwise the
assembled body and its content type are returned. -/
def Client.upload (f : UploadFile) : Except GoErr (Multipart × String) :=
  match f.copyResult with
  | .error e => .error e
  | .ok written =>
    match f.statResult with
    | .error e => .error e
    | .ok size =>
      if (written.length : Int) ≠ size then .error .incompleteFile
      else
        .ok ({ fieldName := "file", fileName := filepathBase f.path, fileBytes := written },
          multipartContentType)

/-! ## Operations (`pcs.go`)

Each public operation encodes its typed option set via its `url:"..."`
tags, builds its URL with `Client.addOptions`, and issues it through
`Client.Get` (base-URL--resolved GET), `Client.Post` (unresolved POST) or
`Client.PostForm`.  None of the methods assigns to any field of the
receiver, so each returns the client unchanged in the `runOp` machine
below. -/

/-- Go `FileOptions` (`url:"path"`, `url:"ondup,omitempty"`). -/
structure FileOptions where
  path : String
  ondup : String := ""
  deriving DecidableEq, Repr

/-- Go `query.Values` encoding of a `*FileOptions` argument: a typed nil
pointer stays a nil pointer; a non-nil struct yields its tagged fields in
declaration order, dropping `ondup` when it is at its zero value. -/
def FileOptions.toOptArg : Option FileOptions → OptArg
  | none => .nilPtr
  | some o =>
    .fields ([("path", o.path)] ++ if o.ondup = "" then [] else [("ondup", o.ondup)])

/-- Go `ListFilesOptions` (`url:"path"`, `url:"order,omitempty"`,
`url:"by,omitempty"`, `url:"limit,omitempty"`); the Go field `By` is
called `byField` here because `by` is reserved in Lean. -/
structure ListFilesOptions where
  path : String
  order : String := ""
  byField : String := ""
  limit : String := ""
  deriving DecidableEq, Repr

/-- Go `query.Values` encoding of a `*ListFilesOptions` argument. -/
def ListFilesOptions.toOptArg : Option ListFilesOptions → OptArg
  | none => .nilPtr
  | some o =>
    .fields ([("path", o.path)]
      ++ (if o.order = "" then [] else [("order", o.order)])
      ++ (if o.byField = "" then [] else [("by", o.byField)])
      ++ (if o.limit = "" then [] else [("limit", o.limit)]))

/-- Go `RapiduUploadOptions` (sic, source spelling): `url:"path"`,
`url:"content-length"`, `url:"content-md5"`, `url:"slice-md5"`,
`url:"content-crc32"`, `url:"ondup,omitempty"`. -/
structure RapiduUploadOptions where
  path : String
  contentLength : Int
  contentMd5 : String
  sliceMd5 : String
  contentCrc32 : String
  ondup : String := ""
  deriving DecidableEq, Repr

/-- Go `query.Values` encoding of a (non-nil) `*RapiduUploadOptions`. -/
def RapiduUploadOptions.toOptArg (o : RapiduUploadOptions) : OptArg :=
  .fields ([("path", o.path), ("content-length", toString o.contentLength),
    ("content-md5", o.contentMd5), ("slice-md5", o.sliceMd5),
    ("content-crc32", o.contentCrc32)]
    ++ if o.ondup = "" then [] else [("ondup", o.ondup)])

/-- Go `encoding/json` string escaping as used by `json.Marshal`: quote,
backslash, the HTML characters `<`, `>`, `&`, and control characters. -/
def jsonEscapeChar (ch : Char) : List Char :=
  if ch = '"' then ['\\', '"']
  else if ch = '\\' then ['\\', '\\']
  else if ch = '\n' then ['\\', 'n']
  else if ch = '\x0d' then ['\\', 'r']
  else if ch = '\t' then ['\\', 't']
  else if ch.toNat < 32 ∨ ch = '<' ∨ ch = '>' ∨ ch = '&' then
    ['\\', 'u', '0', '0', hexDigit (ch.toNat / 16 % 16), hexDigit (ch.toNat % 16)]
  else [ch]

/-- A JSON string literal for `s`. -/
def jsonQuote (s : String) : String :=
  "\"" ++ String.mk (s.toList.map jsonEscapeChar).flatten ++ "\""

/-- Go `json.Marshal` of a `[]string`. -/
def jsonStringArray (l : List String) : String :=
  "[" ++ String.intercalate "," (l.map jsonQuote) ++ "]"

/-- Go `json.Marshal(map[string][]string{"blocklist": md5})`: the `param`
form value sent by `CreateSuperFile`, carrying the digests in order. -/
def superFileParam (md5 : List String) : String :=
  "\x7b\"blocklist\":" ++ jsonStringArray md5 ++ "\x7d"

/-- Go `Client.GetQuota()`: `addOptions("quota", "info", nil)` (untyped nil)
then `Client.Get`. -/
def Client.GetQuota (c : Client) : Request :=
  c.getRequest (c.addOptions "quota" "info" .interfaceNil)

/-- Go `Client.Upload(srcPath, opt)`: build the multipart body with
`Client.upload`, then `addOptions("file", "upload", opt)` and
`Client.Post`. -/
def Client.Upload (c : Client) (f : UploadFile) (opt : Option FileOptions) :
    Except GoErr Request :=
  match Client.upload f with
  | .error e => .error e
  | .ok bodyCt =>
    .ok (c.postRequest (c.addOptions "file" "upload" (FileOptions.toOptArg opt))
      bodyCt.2 (some bodyCt.1))

/-- Go `Client.BlockUpload(srcPath)`: the multipart body plus the fixed
option struct `{Type: "tmpfile"}`. -/
def Client.BlockUpload (c : Client) (f : UploadFile) : Except GoErr Request :=
  match Client.upload f with
  | .error e => .error e
  | .ok bodyCt =>
    .ok (c.postRequest (c.addOptions "file" "upload" (.fields [("type", "tmpfile")]))
      bodyCt.2 (some bodyCt.1))

/-- Go `Client.CreateSuperFile(targetPath, md5, opt)`: a block list with
fewer than 2 or more than 1024 digests is rejected with
`ErrInvalidArgument` before anything is built or sent; otherwise the
merge request goes out as a form POST whose `param` value is the JSON
block list.  (`targetPath` is accepted but never used by the source.) -/
def Client.CreateSuperFile (c : Client) (targetPath : String) (md5 : List String)
    (opt : Option FileOptions) : Except GoErr Request :=
  if md5.length < 2 ∨ 1024 < md5.length then .error .invalidArgument
  else
    .ok (c.postFormRequest (c.addOptions "file" "createsuperfile" (FileOptions.toOptArg opt))
      [("param", superFileParam md5)])

/-- Go `Client.Download(path)`: `addOptions("file", "download", &opt)` then
`Client.Get` — which resolves against `c.BaseURL`, the control endpoint
(`NewDownloadRequest` exists in the source but is never called). -/
def Client.Download (c : Client) (path : String) : Request :=
  c.getRequest (c.addOptions "file" "download" (.fields [("path", path)]))

/-- Go `Client.GetMeta(path)`: a form POST with no form values. -/
def Client.GetMeta (c : Client) (path : String) : Request :=
  c.postFormRequest (c.addOptions "file" "meta" (.fields [("path", path)])) []

/-- Go `Client.ListFiles(opt)`: `addOptions("file", "list", opt)` then
`Client.Get`. -/
def Client.ListFiles (c : Client) (opt : Option ListFilesOptions) : Request :=
  c.getRequest (c.addOptions "file" "list" (ListFilesOptions.toOptArg opt))

/-- Go `Client.RapidUpload(opt)`: `opt.ContentLength <= minRapidUploadFile`
is rejected with `ErrMinRapidFileSize` before any URL is built or request
sent; otherwise the form POST goes out with the fingerprint fields as
query options. -/
def Client.RapidUpload (c : Client) (opt : RapiduUploadOptions) : Except GoErr Request :=
  if opt.contentLength ≤ (minRapidUploadFile : Int) then .error .minRapidFileSize
  else .ok (c.postFormRequest (c.addOptions "file" "rapidupload" opt.toOptArg) [])

/-! ## Operation sequences

`Op` ranges over the embedded operations; `runOp` performs one operation,
returning the (unchanged — no method of the source assigns to a receiver
field) client together with the request the operation constructs, or the
local validation error that stopped it. -/

/-- One client operation with its inputs. -/
inductive Op where
  | getQuota
  | upload (f : UploadFile) (opt : Option FileOptions)
  | blockUpload (f : UploadFile)
  | createSuperFile (targetPath : String) (md5 : List String) (opt : Option FileOptions)
  | download (path : String)
  | getMeta (path : String)
  | listFiles (opt : Option ListFilesOptions)
  | rapidUpload (opt : RapiduUploadOptions)

/-- Perform one operation: the resulting client state paired with the
request it constructs (or the local error that prevented one). -/
def runOp (c : Client) (op : Op) : Client × Except GoErr Request :=
  match op with
  | .getQuota => (c, .ok c.GetQuota)
  | .upload f opt => (c, c.Upload f opt)
  | .blockUpload f => (c, c.BlockUpload f)
  | .createSuperFile t m o => (c, c.CreateSuperFile t m o)
  | .download p => (c, .ok (c.Download p))
  | .getMeta p => (c, .ok (c.GetMeta p))
  | .listFiles o => (c, .ok (c.ListFiles o))
  | .rapidUpload o => (c, c.RapidUpload o)

/-- Run a sequence of operations, threading the client state. -/
def applyOps (c : Client) (ops : List Op) : Client :=
  ops.foldl (fun s o => (runOp s o).1) c

/-! ## Helper lemmas -/

/-- No operation modifies the client: every method of the source reads
its receiver's fields but never assigns to them. -/
theorem runOp_fst (c : Client) (op : Op) : (runOp c op).1 = c := by
  cases op <;> rfl

/-- Hence a whole operation sequence leaves the client untouched. -/
theorem applyOps_eq (c : Client) (ops : List Op) : applyOps c ops = c := by
  induction ops generalizing c with
  | nil => rfl
  | cons o t ih => simp [applyOps, runOp_fst, List.foldl_cons, ih c]

/-- Membership survives `url.Values.Encode` (a permutation sort). -/
theorem mem_encode {q : Values} {p : String × String} :
    p ∈ Values.encode q ↔ p ∈ q :=
  (List.mergeSort_perm q _).mem_iff

/-- Go `Set` puts its own pair into the values. -/
theorem mem_set_self (q : Values) (k v : String) : (k, v) ∈ Values.set q k v := by
  simp [Values.set]

/-- Go `Set` keeps pairs with a different key. -/
theorem mem_set_of_ne (q : Values) (k' v' k v : String)
    (h : k' ≠ k) (hm : (k', v') ∈ q) : (k', v') ∈ Values.set q k v := by
  simp only [Values.set, List.mem_append, List.mem_filter]
  exact Or.inl ⟨hm, by simpa using h⟩

/-! ## Claim theorems -/

/-- C1 — For every client and every sequence of operations on it,
each operation builds its request URL from a clean path and query state:
the request an operation constructs after any operation sequence is the
one it constructs on the fresh client, and running an operation leaves
the stored base URLs (control, upload, download) and the access token of
the client unchanged. -/
theorem requests_history_independent (c : Client) (ops : List Op) (op : Op) :
    (runOp (applyOps c ops) op).2 = (runOp c op).2 ∧
    ((runOp c op).1.baseURL = c.baseURL ∧
      (runOp c op).1.uploadURL = c.uploadURL ∧
      (runOp c op).1.downloadURL = c.downloadURL ∧
      (runOp c op).1.accessToken = c.accessToken) := by
  refine ⟨by rw [applyOps_eq], ?_⟩
  rw [runOp_fst]
  exact ⟨rfl, rfl, rfl, rfl⟩

/-- C7 counterexample — the claim quantifies over every option set,
including an absent one; for the typed nil pointer (a `*FileOptions`
caller-supplied `nil`, reachable through `Upload`) `addOptions` returns
the bare resource path with no query at all, so the produced URL carries
neither `access_token` nor `method`. -/
theorem addOptions_nilPtr_drops_params :
    ¬ (("access_token", "tok") ∈ ((NewClient "tok").addOptions "file" "upload" .nilPtr).query ∧
       ("method", "upload") ∈ ((NewClient "tok").addOptions "file" "upload" .nilPtr).query) := by
  decide

/-- C7 amended — for every resource path, method name and option set
*other than a typed nil pointer* (including the absent, untyped-nil
option set), the URL produced by `addOptions` carries both mandatory
query parameters: the access token and the method name. -/
theorem addOptions_carries_token_and_method (c : Client) (s method : String)
    (opt : OptArg) (h : opt ≠ .nilPtr) :
    ("access_token", c.accessToken) ∈ (c.addOptions s method opt).query ∧
    ("method", method) ∈ (c.addOptions s method opt).query := by
  cases opt with
  | nilPtr => exact absurd rfl h
  | interfaceNil =>
    constructor
    · exact mem_encode.mpr (mem_set_of_ne _ "access_token" c.accessToken "method" method
        (by decide) (mem_set_self ([] : Values) "access_token" c.accessToken))
    · exact mem_encode.mpr (mem_set_self _ "method" method)
  | fields l =>
    constructor
    · exact mem_encode.mpr (mem_set_of_ne _ "access_token" c.accessToken "method" method
        (by decide) (mem_set_self l "access_token" c.accessToken))
    · exact mem_encode.mpr (mem_set_self _ "method" method)

/-- Witness for the C7 amended theorem at a concrete input: the quota
call's untyped-nil option set. -/
theorem addOptions_carries_token_and_method_witness :
    (OptArg.interfaceNil ≠ OptArg.nilPtr) ∧
    (("access_token", "t") ∈ ((NewClient "t").addOptions "quota" "info" .interfaceNil).query ∧
     ("method", "info") ∈ ((NewClient "t").addOptions "quota" "info" .interfaceNil).query) :=
  ⟨by decide, addOptions_carries_token_and_method (NewClient "t") "quota" "info"
    .interfaceNil (by decide)⟩

/-- C2 — `CreateSuperFile` returns the local validation error
`ErrInvalidArgument`, without constructing any request, exactly when the
digest list has fewer than 2 or more than 1024 entries; for every list
with between 2 and 1024 entries inclusive it builds the merge form POST
whose `param` value is the JSON block list carrying the digests in
order. -/
theorem CreateSuperFile_blocklist_bounds (c : Client) (targetPath : String)
    (md5 : List String) (opt : Option FileOptions) :
    (c.CreateSuperFile targetPath md5 opt = .error .invalidArgument ↔
      md5.length < 2 ∨ 1024 < md5.length) ∧
    (2 ≤ md5.length → md5.length ≤ 1024 →
      c.CreateSuperFile targetPath md5 opt =
        .ok (c.postFormRequest
          (c.addOptions "file" "createsuperfile" (FileOptions.toOptArg opt))
          [("param", superFileParam md5)])) := by
  unfold Client.CreateSuperFile
  by_cases h : md5.length < 2 ∨ 1024 < md5.length
  · exact ⟨by simp [h], fun h2 h1024 => absurd h (by omega)⟩
  · exact ⟨by simp [h], fun _ _ => by simp [h]⟩

/-- Witness for C2 at the boundary: a 2-entry block list is accepted and
forwarded in order. -/
theorem CreateSuperFile_blocklist_bounds_witness :
    (2 ≤ (["a", "b"] : List String).length ∧ (["a", "b"] : List String).length ≤ 1024) ∧
    (NewClient "t").CreateSuperFile "/p" ["a", "b"] none =
      .ok ((NewClient "t").postFormRequest
        ((NewClient "t").addOptions "file" "createsuperfile" (FileOptions.toOptArg none))
        [("param", superFileParam ["a", "b"])]) :=
  ⟨⟨by decide, by decide⟩,
    (CreateSuperFile_blocklist_bounds (NewClient "t") "/p" ["a", "b"] none).2
      (by decide) (by decide)⟩

/-- C3 — `RapidUpload` returns the local error `ErrMinRapidFileSize`,
without constructing any request, exactly when the declared content
length is at most `minRapidUploadFile` (262144) bytes; for every strictly
larger length it builds and issues the rapid-upload form POST. -/
theorem RapidUpload_threshold (c : Client) (opt : RapiduUploadOptions) :
    (c.RapidUpload opt = .error .minRapidFileSize ↔
      opt.contentLength ≤ (minRapidUploadFile : Int)) ∧
    ((minRapidUploadFile : Int) < opt.contentLength →
      c.RapidUpload opt =
        .ok (c.postFormRequest (c.addOptions "file" "rapidupload" opt.toOptArg) [])) := by
  unfold Client.RapidUpload
  by_cases h : opt.contentLength ≤ (minRapidUploadFile : Int)
  · exact ⟨by simp [h], fun hlt => absurd h (not_le.mpr hlt)⟩
  · exact ⟨by simp [h], fun _ => by simp [h]⟩

/-- Fingerprint options of a file one byte over the rapid-upload
threshold. -/
def rapidOptBig : RapiduUploadOptions :=
  { path := "/p", contentLength := 262145, contentMd5 := "m", sliceMd5 := "s",
    contentCrc32 := "c" }

/-- Fingerprint options of a file exactly at the threshold. -/
def rapidOptSmall : RapiduUploadOptions :=
  { rapidOptBig with contentLength := 262144 }

/-- Witness for C3 on both sides of the threshold: 262145 proceeds,
262144 is rejected locally. -/
theorem RapidUpload_threshold_witness :
    ((minRapidUploadFile : Int) < rapidOptBig.contentLength ∧
      (NewClient "t").RapidUpload rapidOptBig =
        .ok ((NewClient "t").postFormRequest
          ((NewClient "t").addOptions "file" "rapidupload" rapidOptBig.toOptArg) [])) ∧
    (NewClient "t").RapidUpload rapidOptSmall = .error .minRapidFileSize :=
  ⟨⟨by decide, (RapidUpload_threshold (NewClient "t") rapidOptBig).2 (by decide)⟩,
    (RapidUpload_threshold (NewClient "t") rapidOptSmall).1.mpr (by decide)⟩

/-- C4 — `CheckResponse` classifies a response as success exactly when
its status lies in the inclusive range 200..299, and a 404 response with
body `\x7b"error_msg":"file does not exist","error_code":31066\x7d`
decodes to the structured error carrying that message and code — never a
success. -/
theorem CheckResponse_success_iff_2xx :
    (∀ (status : Int) (body : String),
      CheckResponse status body = none ↔ 200 ≤ status ∧ status ≤ 299) ∧
    CheckResponse 404 "\x7b\"error_msg\":\"file does not exist\",\"error_code\":31066\x7d" =
      some (.apiError 404 "file does not exist" 31066) := by
  constructor
  · intro status body
    unfold CheckResponse
    by_cases h : 200 ≤ status ∧ status ≤ 299 <;> simp [h]
  · decide

/-- C5 — code bug, evaluated at the failing input: for the 1-byte file
`[0x61]`, `SumFile` hashes the whole zero-padded 262144-byte slice buffer
for `sliceMd5` (it ignores the byte count `buf.Read` returned), so the
slice digest is taken over `0x61` followed by 262143 zero bytes — not
over the file's content, which the claim (slice = whole file) requires. -/
theorem SumFile_short_slice_zero_padded :
    Client.SumFile [97] =
      .ok { contentLen := 1, contentMd5 := md5Hex [97],
            sliceMd5 := md5Hex (97 :: List.replicate 262143 0),
            contentCrc32 := ChecksumIEEE [97] } ∧
    (97 :: List.replicate 262143 0) ≠ [97] := by
  refine ⟨rfl, fun h => ?_⟩
  have hlen := congrArg List.length h
  rw [List.length_cons, List.length_replicate] at hlen
  exact absurd hlen (by decide)

/-- C6 — for every two contents strictly longer than 262144 bytes that
agree on their first 262144 bytes, `SumFile` computes the same
`sliceMd5`; in particular appending bytes after offset 262144 never
changes it. -/
theorem SumFile_sliceMd5_prefix_determined (c1 c2 : List Nat)
    (h1 : minRapidUploadFile < c1.length) (h2 : minRapidUploadFile < c2.length)
    (h : c1.take minRapidUploadFile = c2.take minRapidUploadFile) :
    (Client.SumFile c1).map Fingerprint.sliceMd5 =
      (Client.SumFile c2).map Fingerprint.sliceMd5 := by
  have l1 : c1.length ≠ 0 := Nat.pos_iff_ne_zero.mp (lt_of_le_of_lt (Nat.zero_le _) h1)
  have l2 : c2.length ≠ 0 := Nat.pos_iff_ne_zero.mp (lt_of_le_of_lt (Nat.zero_le _) h2)
  have hsb : sliceBuffer c1 = sliceBuffer c2 := by
    unfold sliceBuffer
    rw [Nat.sub_eq_zero_of_le (le_of_lt h1), Nat.sub_eq_zero_of_le (le_of_lt h2), h]
  unfold Client.SumFile
  rw [if_neg l1, if_neg l2]
  simp [Except.map, hsb]

/-- Witness for C6: a 262145-byte file and the same file with one byte
appended give the same `sliceMd5`. -/
theorem SumFile_sliceMd5_prefix_determined_witness :
    (minRapidUploadFile < (List.replicate 262145 (0 : Nat)).length ∧
     minRapidUploadFile < (List.replicate 262145 (0 : Nat) ++ [1]).length ∧
     (List.replicate 262145 (0 : Nat)).take minRapidUploadFile =
       (List.replicate 262145 (0 : Nat) ++ [1]).take minRapidUploadFile) ∧
    (Client.SumFile (List.replicate 262145 (0 : Nat))).map Fingerprint.sliceMd5 =
      (Client.SumFile (List.replicate 262145 (0 : Nat) ++ [1])).map Fingerprint.sliceMd5 := by
  have h1 : minRapidUploadFile < (List.replicate 262145 (0 : Nat)).length := by
    rw [List.length_replicate]; norm_num [minRapidUploadFile]
  have h2 : minRapidUploadFile < (List.replicate 262145 (0 : Nat) ++ [1]).length := by
    rw [List.length_append, List.length_replicate]; norm_num [minRapidUploadFile]
  have h : (List.replicate 262145 (0 : Nat)).take minRapidUploadFile =
      (List.replicate 262145 (0 : Nat) ++ [1]).take minRapidUploadFile := by
    rw [List.take_append_of_le_length
      (by rw [List.length_replicate]; norm_num [minRapidUploadFile])]
  exact ⟨⟨h1, h2, h⟩, SumFile_sliceMd5_prefix_determined _ _ h1 h2 h⟩

/-- C8 — code bug, evaluated at the failing input: on a 200 response with
an `io.Writer` target whose body copy fails, `Client.Do` still reports no
error (the source discards the result of `io.Copy(w, resp.Body)`), where
the claim requires the copy error to be reported. -/
theorem Do_writer_copy_error_swallowed :
    Client.Do 200 "" (.writer (.error (.ioFailure "broken pipe"))) = none := rfl

/-- C9 — the direct-upload body builder fails with `ErrIncompleteFile`
exactly when the byte count copied into the multipart body differs from
the size `Stat` reports, and on equality returns the assembled multipart
body and its content type without error (given that the copy and stat
calls themselves succeeded). -/
theorem upload_incomplete_iff_size_mismatch (f : UploadFile) (bs : List Nat) (n : Int)
    (hc : f.copyResult = .ok bs) (hs : f.statResult = .ok n) :
    (Client.upload f = .error .incompleteFile ↔ (bs.length : Int) ≠ n) ∧
    ((bs.length : Int) = n →
      Client.upload f =
        .ok ({ fieldName := "file", fileName := filepathBase f.path, fileBytes := bs },
          multipartContentType)) := by
  unfold Client.upload
  rw [hc, hs]
  by_cases h : (bs.length : Int) = n
  · simp [h]
  · simp [h]

/-- An upload whose copied bytes match the stat size. -/
def uploadFileOk : UploadFile :=
  { path := "/a/b.txt", copyResult := .ok [1, 2], statResult := .ok 2 }

/-- An upload that read fewer bytes than the stat size (truncated
mid-read). -/
def uploadFileShort : UploadFile :=
  { path := "/a/b.txt", copyResult := .ok [1], statResult := .ok 2 }

/-- Witness for C9: the truncated read fails with `ErrIncompleteFile`,
the complete read returns the assembled body. -/
theorem upload_incomplete_iff_size_mismatch_witness :
    (uploadFileShort.copyResult = .ok [1] ∧ uploadFileShort.statResult = .ok 2 ∧
      Client.upload uploadFileShort = .error .incompleteFile) ∧
    (uploadFileOk.copyResult = .ok [1, 2] ∧ uploadFileOk.statResult = .ok 2 ∧
      Client.upload uploadFileOk =
        .ok ({ fieldName := "file", fileName := filepathBase uploadFileOk.path,
               fileBytes := [1, 2] }, multipartContentType)) :=
  ⟨⟨rfl, rfl,
      (upload_incomplete_iff_size_mismatch uploadFileShort [1] 2 rfl rfl).1.mpr (by decide)⟩,
    ⟨rfl, rfl,
      (upload_incomplete_iff_size_mismatch uploadFileOk [1, 2] 2 rfl rfl).2 (by decide)⟩⟩

/-- C10 — code bug, evaluated at concrete inputs: `Upload`, `BlockUpload`,
`CreateSuperFile` and `RapidUpload` go through `Client.Post`/`PostForm`,
which never resolves the URL against any base endpoint, so their request
URLs have no scheme or host at all (in particular not the upload or
control base); and `Download` goes through `Client.Get`, which resolves
against the *control* base URL, not the download base
(`NewUploadRequest`/`NewDownloadRequest` exist in the source but are
never called). -/
theorem endpoints_not_matched_to_role :
    ((NewClient "t").Upload uploadFileOk none).map (fun r => r.url.hostPart) = .ok "" ∧
    ((NewClient "t").BlockUpload uploadFileOk).map (fun r => r.url.hostPart) = .ok "" ∧
    "" ≠ uploadBaseURL.hostPart ∧
    ((NewClient "t").CreateSuperFile "/p" ["x", "y"] none).map
      (fun r => r.url.hostPart) = .ok "" ∧
    ((NewClient "t").RapidUpload rapidOptBig).map (fun r => r.url.hostPart) = .ok "" ∧
    "" ≠ defaultBaseURL.hostPart ∧
    ((NewClient "t").Download "/x").url.hostPart = defaultBaseURL.hostPart ∧
    defaultBaseURL.hostPart ≠ downloadBaseURL.hostPart :=
  ⟨rfl, rfl, by decide, rfl, rfl, by decide, rfl, by decide⟩

end BaiduPcs
